import Mathlib

/-!
Verification development for the attendance-tracking chat bot (`bot/main.py`).

The store is the SQLite database; every operation re-reads and re-writes
through it.  Timestamps are stored as ISO-8601 strings produced by
`now_iso()` (timezone-aware, fixed Tehran offset); SQL string comparison of
such strings agrees with chronological order on the local wall clock, so a
timestamp is modelled as its local wall-clock second count `sec` together
with the `aware` flag of the corresponding Python `datetime` (the stored
strings are always aware; the only naive datetime in the program is the
synthetic end-of-day value built in `calc_stats_for_period`).  Dates are
modelled as day numbers, with `date.isoformat()` ranges translated to
second ranges (day `d` covers seconds `[d*86400, (d+1)*86400)`).
Subtracting an aware and a naive `datetime` raises `TypeError` in Python;
`DT.sub` returns `none` in that case.
-/

namespace Bot

/-- wall-clock instant: local Tehran seconds plus the Python tz-awareness flag -/
structure DT where
  sec : Nat
  aware : Bool
deriving DecidableEq, Repr

/-- Python `datetime` subtraction: defined only when both operands have the
same awareness; an aware-minus-naive subtraction raises `TypeError`. -/
def DT.sub (a b : DT) : Option Int :=
  if a.aware = b.aware then some ((a.sec : Int) - (b.sec : Int)) else none

/-- one row of the `attendance` table -/
structure Interval where
  id : Nat
  userId : Int
  location : String
  entry_time : DT
  exit_time : Option DT
  auto_created : Bool
deriving DecidableEq, Repr

/-- one row of the `daily_notes` table -/
structure Note where
  userId : Int
  note_date : Nat
  time : Nat
  message : String
deriving DecidableEq, Repr

/-- the database: `attendance` rows (in rowid order, `nextId` the
AUTOINCREMENT counter), `daily_notes` rows, and the `note_sessions`
table keyed by `user_id` -/
structure Store where
  attendance : List Interval
  nextId : Nat
  daily_notes : List Note
  note_sessions : List (Int × Bool)
deriving DecidableEq, Repr

def emptyStore : Store := ⟨[], 0, [], []⟩

/-- the `WHERE user_id=? AND location=? AND exit_time IS NULL` condition -/
def isOpenFor (u : Int) (loc : String) (r : Interval) : Prop :=
  r.userId = u ∧ r.location = loc ∧ r.exit_time = none

instance (u : Int) (loc : String) (r : Interval) : Decidable (isOpenFor u loc r) := by
  unfold isOpenFor; infer_instance

/-- the accumulator step realizing `ORDER BY id DESC LIMIT 1` over the
matching rows -/
def openRowStep (u : Int) (loc : String) (acc : Option Interval) (r : Interval) :
    Option Interval :=
  if isOpenFor u loc r then
    match acc with
    | none => some r
    | some a => if a.id < r.id then some r else some a
  else acc

/-- `SELECT ... FROM attendance WHERE user_id=? AND location=? AND
exit_time IS NULL ORDER BY id DESC LIMIT 1`: the matching open row with
the greatest id. -/
def findOpenRow (rows : List Interval) (u : Int) (loc : String) : Option Interval :=
  rows.foldl (openRowStep u loc) none

inductive EntryResult
  | rejected
  | recorded
deriving DecidableEq, Repr

/-- `handle_entry`: reject when an open interval for (user, location)
exists, otherwise insert a new open row `(user, location, ts, NULL, 0)`. -/
def handle_entry (u : Int) (loc : String) (ts : Nat) (s : Store) : Store × EntryResult :=
  match findOpenRow s.attendance u loc with
  | some _ => (s, .rejected)
  | none =>
      ({ s with
          attendance := s.attendance ++ [⟨s.nextId, u, loc, ⟨ts, true⟩, none, false⟩],
          nextId := s.nextId + 1 },
       .recorded)

inductive ExitResult
  | closed (duration : Option Int)
  | confirmRequired
deriving DecidableEq, Repr

/-- `handle_exit`: when an open row exists, `UPDATE attendance SET
exit_time=? WHERE id=?` on the most recent open row and report the
duration computed by the `try`/`except` block (`none` models the
`except` fallback `"—"`); otherwise make no change and ask for the
auto-entry confirmation. -/
def handle_exit (u : Int) (loc : String) (ts : Nat) (s : Store) : Store × ExitResult :=
  match findOpenRow s.attendance u loc with
  | some r =>
      ({ s with
          attendance := s.attendance.map
            (fun x => if x.id = r.id then { x with exit_time := some ⟨ts, true⟩ } else x) },
       .closed (DT.sub ⟨ts, true⟩ r.entry_time))
  | none => (s, .confirmRequired)

/-- `confirm_auto_entry`: unconditionally insert a closed row
`(user, location, ts, ts, 1)`. -/
def confirm_auto_entry (u : Int) (loc : String) (ts : Nat) (s : Store) : Store :=
  { s with
      attendance := s.attendance ++ [⟨s.nextId, u, loc, ⟨ts, true⟩, some ⟨ts, true⟩, true⟩],
      nextId := s.nextId + 1 }

/-- `reset_user_state`: `INSERT OR REPLACE INTO note_sessions(user_id, active)
VALUES (?,0)` — replaces the row keyed by `user_id`, touching no other table. -/
def reset_user_state (u : Int) (s : Store) : Store :=
  { s with note_sessions := s.note_sessions.filter (fun p => p.1 ≠ u) ++ [(u, false)] }

/-- read of `note_sessions.active`: absent row or stored 0 both read as
inactive (`bool(rows and rows[0][0] == 1)`). -/
def getNoteSessionActive (s : Store) (u : Int) : Bool :=
  match s.note_sessions.find? (fun p => p.1 = u) with
  | some p => p.2
  | none => false

/-- the reconciliation operations a user can fire (entry / exit button,
auto-entry confirmation), each carrying the `now_iso()` instant at which
the handler ran -/
inductive Op
  | entry (u : Int) (loc : String) (ts : Nat)
  | exit (u : Int) (loc : String) (ts : Nat)
  | confirmAutoEntry (u : Int) (loc : String) (ts : Nat)

def applyOp (s : Store) : Op → Store
  | .entry u loc ts => (handle_entry u loc ts s).1
  | .exit u loc ts => (handle_exit u loc ts s).1
  | .confirmAutoEntry u loc ts => confirm_auto_entry u loc ts s

def runOps (ops : List Op) : Store := ops.foldl applyOp emptyStore

/-- number of open intervals stored for (user, location) -/
def countOpen (s : Store) (u : Int) (loc : String) : Nat :=
  (s.attendance.filter (fun r => isOpenFor u loc r)).length

/-- the configured location list of `bot/main.py` -/
def LOCATIONS : List String :=
  ["گلشهر", "کوچمشکی", "جاده شهرک", "انبار صفا", "انبار پونک", "دفتر شهرک"]

/-- `SELECT location, entry_time, exit_time FROM attendance WHERE user_id=?
AND entry_time>=? AND entry_time<?` with the bounds
`start_date.isoformat()` and `(end_date + 1 day).isoformat()`: string
comparison of the ISO strings keeps the rows whose entry instant lies in
the closed date range, i.e. in `[sd*86400, (ed+1)*86400)` seconds. -/
def rowsInRange (s : Store) (u : Int) (sd ed : Nat) : List Interval :=
  s.attendance.filter
    (fun r => r.userId = u ∧ sd * 86400 ≤ r.entry_time.sec ∧
      r.entry_time.sec < (ed + 1) * 86400)

/-- duration of one fetched row inside `calc_stats_for_period`: a missing
exit is replaced by `end_date.isoformat() + "T23:59:59"` parsed as a NAIVE
datetime, so for an open row with (always aware) entry the subtraction
`ex_dt - ent_dt` raises `TypeError` (`none`). -/
def contributionOf (ed : Nat) (r : Interval) : Option Int :=
  (match r.exit_time with
    | none => (⟨ed * 86400 + 86399, false⟩ : DT)
    | some x => x).sub r.entry_time

/-- `stats[loc]["total"] += dur` on the insertion-ordered dict: add to the
first matching key, or append a new key at the end. -/
def addToLoc : List (String × Int) → String → Int → List (String × Int)
  | [], loc, d => [(loc, d)]
  | (l, t) :: rest, loc, d =>
      if l = loc then (l, t + d) :: rest else (l, t) :: addToLoc rest loc d

/-- the `for loc, ent, ex in rows` loop of `calc_stats_for_period`;
a `TypeError` from any row aborts the whole computation. -/
def calcFold (ed : Nat) : List Interval → List (String × Int) → Int →
    Option (List (String × Int) × Int)
  | [], st, tot => some (st, tot)
  | r :: rest, st, tot =>
      match contributionOf ed r with
      | none => none
      | some dur => calcFold ed rest (addToLoc st r.location dur) (tot + dur)

/-- initial `stats` dict: every configured location mapped to zero total -/
def initStats : List (String × Int) := LOCATIONS.map (fun l => (l, 0))

/-- `calc_stats_for_period(user_id, start_date, end_date)`: per-location
totals (dict in insertion order) and the grand total; `none` when the
Python function raises.  The per-interval display lists kept alongside the
totals in the Python dict are recoverable from `rowsInRange` and are not
claimed about here. -/
def calc_stats_for_period (s : Store) (u : Int) (sd ed : Nat) :
    Option (List (String × Int) × Int) :=
  calcFold ed (rowsInRange s u sd ed) initStats 0

/-- dict access `stats.get(loc, {}).get("total", timedelta())` -/
def lookupLoc : List (String × Int) → String → Option Int
  | [], _ => none
  | (l, t) :: rest, loc => if l = loc then some t else lookupLoc rest loc

def locTotal (st : List (String × Int)) (loc : String) : Int :=
  (lookupLoc st loc).getD 0

/-- the per-location summary lines of `generate_text_report`
(`for loc in LOCATIONS: lines.append(f"• {loc}: ...")`): the report
iterates only the configured list; `none` when `calc_stats_for_period`
raises first. -/
def report_loc_lines (s : Store) (u : Int) (sd ed : Nat) :
    Option (List (String × Int)) :=
  (calc_stats_for_period s u sd ed).map
    (fun st => LOCATIONS.map (fun loc => (loc, locTotal st.1 loc)))

/-- the per-location lines as the specification words them: "iterate the
configured location list in its declared order first ..., then merge any
location found in the data that is not in the configured list" — which is
exactly the insertion-ordered stats dict itself. -/
def report_loc_lines_per_spec (s : Store) (u : Int) (sd ed : Nat) :
    Option (List (String × Int)) :=
  (calc_stats_for_period s u sd ed).map (fun st => st.1)

/-- the `comp` row function of `generate_excel_report`: fractional hours
`(b - a).total_seconds() / 3600`, with a missing exit giving `b = a`
(hence 0) and any raised exception caught to 0. -/
def compHours (r : Interval) : ℚ :=
  match r.exit_time with
  | none => 0
  | some x =>
      match x.sub r.entry_time with
      | none => 0
      | some d => (d : ℚ) / 3600

/-- the data-frame built by `generate_excel_report`: one row per fetched
interval, carrying location, entry, exit and the computed `hours` column. -/
def excel_rows (s : Store) (u : Int) (sd ed : Nat) :
    List (String × DT × Option DT × ℚ) :=
  (rowsInRange s u sd ed).map (fun r => (r.location, r.entry_time, r.exit_time, compHours r))

/-- duration aggregation as the specification words it: every interval
whose start falls in the range contributes
`min(end ?? reportRangeEnd, rangeEnd) - start`, the range end taken as the
end-of-day instant of the last day. -/
def contribution_per_spec (ed : Nat) (r : Interval) : Int :=
  min ((r.exit_time.map (fun x => (x.sec : Int))).getD ((ed * 86400 + 86399 : Nat) : Int))
      ((ed * 86400 + 86399 : Nat) : Int) - (r.entry_time.sec : Int)

/-- grand total under the specification's clamped formula -/
def total_per_spec (s : Store) (u : Int) (sd ed : Nat) : Int :=
  ((rowsInRange s u sd ed).map (contribution_per_spec ed)).sum

/-!
Calendar adapter.  `gregorian_date_to_jalali_str` and `parse_jalali_date`
in `bot/main.py` delegate the Gregorian↔Jalali conversion to the external
`jdatetime` library, whose source is not part of this repository; only the
zero-padded `YYYY-MM-DD` formatting and `fromisoformat` parsing around it
are repository code (and on zero-padded in-range components that string
layer is a bijection, so a date literal is modelled by its numeric
components).  The conversion itself is modelled below by the standard
33-year-cycle arithmetic algorithm (`jalali.c` by Pournader and Toossi,
the algorithm the library implements), with Python's floor `//` and `%`
carried over to `Int./` and `Int.%`, which agree for the positive
divisors used here.
-/

/-- Modelled from the spec: `toDisplayCalendar`/`fromDisplayCalendar` of the
Calendar Adapter are realized by the external `jdatetime` library, missing
from `src/`; days in each Jalali month (index 0 = Farvardin). -/
def jDimN : Nat → Int
  | 0 => 31 | 1 => 31 | 2 => 31 | 3 => 31 | 4 => 31 | 5 => 31
  | 6 => 30 | 7 => 30 | 8 => 30 | 9 => 30 | 10 => 30 | _ => 29

/-- cumulative days before each Jalali month -/
def jCumN : Nat → Int
  | 0 => 0 | 1 => 31 | 2 => 62 | 3 => 93 | 4 => 124 | 5 => 155
  | 6 => 186 | 7 => 216 | 8 => 246 | 9 => 276 | 10 => 306 | _ => 336

/-- the month-extraction loop `while i < 11 and j_day_no >= j_days_in_month[i]`,
with its at-most-11 iterations as structural fuel -/
def jMonthAux : Nat → Nat → Int → Nat × Int
  | 0, i, r => (i, r)
  | fuel+1, i, r =>
      if i < 11 ∧ jDimN i ≤ r then jMonthAux fuel (i+1) (r - jDimN i) else (i, r)

/-- a Jalali (display-calendar) date, the numeric content of a rendered
`YYYY-MM-DD` literal -/
structure JDate where
  year : Int
  month : Int
  day : Int
deriving DecidableEq, Repr

/-- Modelled from the spec: day-number to Jalali date, the tail of
`GregorianToJalali` after `j_day_no = g_day_no - 79` (33-year cycles of
12053 days, 4-year cycles of 1461 days, then the month loop). -/
def jFromDayNo (jdn : Int) : JDate :=
  let jnp := jdn / 12053
  let r1 := jdn % 12053
  let jy1 := 979 + 33 * jnp + 4 * (r1 / 1461)
  let r2 := r1 % 1461
  let jy2 := if 366 ≤ r2 then jy1 + (r2 - 1) / 365 else jy1
  let r3 := if 366 ≤ r2 then (r2 - 1) % 365 else r2
  let p := jMonthAux 11 0 r3
  ⟨jy2, (p.1 : Int) + 1, p.2 + 1⟩

/-- Modelled from the spec: Jalali date to day number, the head of
`JalaliToGregorian` (`365*jy + (jy//33)*8 + (jy%33+3)//4` plus month
prefix and day). -/
def jalaliDayNo (j : JDate) : Int :=
  let y := j.year - 979
  365 * y + (y / 33) * 8 + ((y % 33) + 3) / 4
    + jCumN (j.month - 1).toNat + (j.day - 1)

/-- days in each Gregorian month (index 0 = January, February without the
leap day) -/
def gDimN : Nat → Int
  | 0 => 31 | 1 => 28 | 2 => 31 | 3 => 30 | 4 => 31 | 5 => 30
  | 6 => 31 | 7 => 31 | 8 => 30 | 9 => 31 | 10 => 30 | _ => 31

/-- cumulative days before each Gregorian month (leap day not counted) -/
def gCumN : Nat → Int
  | 0 => 0 | 1 => 31 | 2 => 59 | 3 => 90 | 4 => 120 | 5 => 151
  | 6 => 181 | 7 => 212 | 8 => 243 | 9 => 273 | 10 => 304 | _ => 334

/-- the Gregorian leap test on the 1600-relative year, kept as the `Int`
flag the Python code carries around -/
def gLeapI (a : Int) : Int :=
  if (a % 4 = 0 ∧ a % 100 ≠ 0) ∨ a % 400 = 0 then 1 else 0

/-- cumulative days before month index `i`, including the leap day once
past February (`i ≥ 2`), matching `g_day_no += 1` after the month loop of
`GregorianToJalali` when `gm > 1 and leap` -/
def gCumL (L : Int) (i : Nat) : Int :=
  gCumN i + (if 2 ≤ i then L else 0)

/-- `365*gy + (gy+3)//4 - (gy+99)//100 + (gy+399)//400`: days from
1600-01-01 to the start of 1600-relative year `a` -/
def gYearStart (a : Int) : Int :=
  365 * a + (a + 3) / 4 - (a + 99) / 100 + (a + 399) / 400

/-- the 4-year/1-year tail of `JalaliToGregorian`'s cascade
(`gy += 4*(g//1461); g %= 1461; if g >= 366: ...`) -/
def gCascade2 (gy g leap : Int) : Int × Int × Int :=
  if 366 ≤ g % 1461 then
    (gy + 4 * (g / 1461) + (g % 1461 - 1) / 365, (g % 1461 - 1) % 365, 0)
  else (gy + 4 * (g / 1461), g % 1461, leap)

/-- Modelled from the spec: the year/leap cascade of `JalaliToGregorian`
(400-year cycle of 146097 days, then the asymmetric 100-year step with its
`g_day_no -= 1` / `+= 1` corrections), returning `(year, day-of-year,
leap-flag)` -/
def gYearCascade (n : Int) : Int × Int × Int :=
  if 36525 ≤ n % 146097 then
    if 365 ≤ (n % 146097 - 1) % 36524 then
      gCascade2 (1600 + 400 * (n / 146097) + 100 * ((n % 146097 - 1) / 36524))
        ((n % 146097 - 1) % 36524 + 1) 1
    else
      gCascade2 (1600 + 400 * (n / 146097) + 100 * ((n % 146097 - 1) / 36524))
        ((n % 146097 - 1) % 36524) 0
  else gCascade2 (1600 + 400 * (n / 146097)) (n % 146097) 1

def gMonthsList : List Int := [31, 28, 31, 30, 31, 30, 31, 31, 30, 31, 30, 31]

/-- the month loop `while g_day_no >= g_days_in_month[i] + (i == 1 and
leap)`, iterating over the month-length table -/
def gMonthLoop (leap : Int) : List Int → Nat → Int → Nat × Int
  | [], i, r => (i, r)
  | d :: rest, i, r =>
      if d + (if i = 1 then leap else 0) ≤ r then
        gMonthLoop leap rest (i + 1) (r - (d + (if i = 1 then leap else 0)))
      else (i, r)

/-- a Gregorian (internal-calendar) date -/
structure GDate where
  year : Int
  month : Int
  day : Int
deriving DecidableEq, Repr

/-- Modelled from the spec: Gregorian date to day number, the head of
`GregorianToJalali` (year-start formula, month prefix, leap-day
adjustment after February, day). -/
def gregDayNo (g : GDate) : Int :=
  gYearStart (g.year - 1600) + gCumL (gLeapI (g.year - 1600)) (g.month - 1).toNat + (g.day - 1)

/-- Modelled from the spec: day-number to Gregorian date, the tail of
`JalaliToGregorian` (year cascade then month loop). -/
def gFromDayNo (n : Int) : GDate :=
  ⟨(gYearCascade n).1,
   ((gMonthLoop (gYearCascade n).2.2 gMonthsList 0 (gYearCascade n).2.1).1 : Int) + 1,
   (gMonthLoop (gYearCascade n).2.2 gMonthsList 0 (gYearCascade n).2.1).2 + 1⟩

/-- length of a Gregorian month, with February 29 days exactly in leap
years: the validity notion for internal dates -/
def gDaysInMonth (y m : Int) : Int :=
  gDimN (m - 1).toNat + (if m = 2 ∧ gLeapI (y - 1600) = 1 then 1 else 0)

/-- Modelled from the spec: `gregorian_date_to_jalali_str` =
`jdatetime.date.fromgregorian` (day offset `- 79`) followed by the
zero-padded rendering, represented by its numeric components. -/
def gregorian_date_to_jalali_str (g : GDate) : JDate :=
  jFromDayNo (gregDayNo g - 79)

/-- Modelled from the spec: `parse_jalali_date` =
`jdatetime.date.fromisoformat` (numeric components of the literal)
followed by `togregorian` (day offset `+ 79`). -/
def parse_jalali_date (j : JDate) : GDate :=
  gFromDayNo (jalaliDayNo j + 79)

/-- concrete store used to exercise the entry-rejection path: one open
interval for user 1 at the first configured location -/
def storeOpen1 : Store :=
  ⟨[⟨0, 1, "گلشهر", ⟨10, true⟩, none, false⟩], 1, [], []⟩

/-- concrete store with one closed interval that starts on day 0 and ends
on day 2 (exit second 200000): its entry falls in the report range
`[0, 0]` but its exit lies past the range end -/
def storeLongClosed : Store :=
  ⟨[⟨0, 1, "گلشهر", ⟨0, true⟩, some ⟨200000, true⟩, false⟩], 1, [], []⟩

/-- concrete store with one open interval (aware entry at second 3600 of
day 0), the failing input for report generation -/
def storeOneOpen : Store :=
  ⟨[⟨0, 1, "گلشهر", ⟨3600, true⟩, none, false⟩], 1, [], []⟩

/-- concrete store whose only interval sits at a location that is not in
the configured `LOCATIONS` list -/
def storeUnconfigured : Store :=
  ⟨[⟨0, 1, "X", ⟨0, true⟩, some ⟨3600, true⟩, false⟩], 1, [], []⟩

/-- concrete store with data in every table, used to exercise the restart
frame property -/
def storeNotes : Store :=
  ⟨[⟨0, 1, "گلشهر", ⟨10, true⟩, none, false⟩], 1,
   [⟨1, 0, 3600, "یادداشت"⟩], [(1, true), (2, true)]⟩

/-! Theorems.  Helper lemmas come first, then one theorem per claim. -/

theorem foldl_openRowStep_spec (u : Int) (loc : String) :
    ∀ (rows : List Interval) (acc : Option Interval),
      (rows.foldl (openRowStep u loc) acc = none →
        acc = none ∧ ∀ r ∈ rows, ¬ isOpenFor u loc r) ∧
      (∀ res, rows.foldl (openRowStep u loc) acc = some res →
        ((res ∈ rows ∧ isOpenFor u loc res) ∨ acc = some res) ∧
        (∀ x ∈ rows, isOpenFor u loc x → x.id ≤ res.id) ∧
        (∀ a, acc = some a → a.id ≤ res.id)) := by
  intro rows
  induction rows with
  | nil =>
      intro acc
      refine ⟨fun h => ⟨by simpa using h, by simp⟩, fun res h => ?_⟩
      simp only [List.foldl_nil] at h
      refine ⟨Or.inr h, by simp, ?_⟩
      intro a ha
      rw [h] at ha
      cases ha
      exact le_refl _
  | cons hd tl ih =>
      intro acc
      rw [List.foldl_cons]
      by_cases hP : isOpenFor u loc hd
      · have hstep : ∀ b, openRowStep u loc acc hd = some b → (b = hd ∨ acc = some b) ∧
            (∀ a, acc = some a → a.id ≤ b.id) ∧ hd.id ≤ b.id := by
          intro b hb
          cases acc with
          | none =>
              simp only [openRowStep, if_pos hP] at hb
              cases hb
              refine ⟨Or.inl rfl, ?_, le_refl _⟩
              intro a ha
              cases ha
          | some a =>
              simp only [openRowStep, if_pos hP] at hb
              by_cases hlt : a.id < hd.id
              · rw [if_pos hlt] at hb
                cases hb
                refine ⟨Or.inl rfl, ?_, le_refl _⟩
                intro a2 ha2
                cases ha2
                omega
              · rw [if_neg hlt] at hb
                cases hb
                refine ⟨Or.inr rfl, ?_, by omega⟩
                intro a2 ha2
                cases ha2
                exact le_refl _
        have hne : openRowStep u loc acc hd ≠ none := by
          cases acc with
          | none => simp [openRowStep, if_pos hP]
          | some a =>
              simp only [openRowStep, if_pos hP]
              by_cases hlt : a.id < hd.id <;> simp [hlt]
        constructor
        · intro h
          exact absurd ((ih (openRowStep u loc acc hd)).1 h).1 hne
        · intro res h
          obtain ⟨h1, h2, h3⟩ := (ih (openRowStep u loc acc hd)).2 res h
          cases hstepv : openRowStep u loc acc hd with
          | none => exact absurd hstepv hne
          | some b =>
              obtain ⟨hb1, hb2, hb3⟩ := hstep b hstepv
              have hbres : b.id ≤ res.id := h3 b hstepv
              refine ⟨?_, ?_, ?_⟩
              · rcases h1 with ⟨hm, hPr⟩ | hacc
                · exact Or.inl ⟨List.mem_cons_of_mem _ hm, hPr⟩
                · rw [hstepv] at hacc
                  cases hacc
                  rcases hb1 with hbhd | hbacc
                  · exact Or.inl ⟨by rw [hbhd]; exact List.mem_cons_self _ _, by rw [hbhd]; exact hP⟩
                  · exact Or.inr hbacc
              · intro x hx hPx
                rcases List.mem_cons.mp hx with hxhd | hxtl
                · rw [hxhd]; omega
                · exact h2 x hxtl hPx
              · intro a ha
                have := hb2 a ha
                omega
      · have hacc : openRowStep u loc acc hd = acc := by
          unfold openRowStep
          rw [if_neg hP]
        rw [hacc]
        constructor
        · intro h
          obtain ⟨h1, h2⟩ := (ih acc).1 h
          refine ⟨h1, ?_⟩
          intro r hr
          rcases List.mem_cons.mp hr with hrhd | hrtl
          · rw [hrhd]; exact hP
          · exact h2 r hrtl
        · intro res h
          obtain ⟨h1, h2, h3⟩ := (ih acc).2 res h
          refine ⟨?_, ?_, h3⟩
          · rcases h1 with ⟨hm, hPr⟩ | hacc2
            · exact Or.inl ⟨List.mem_cons_of_mem _ hm, hPr⟩
            · exact Or.inr hacc2
          · intro x hx hPx
            rcases List.mem_cons.mp hx with hxhd | hxtl
            · exact absurd (by rw [← hxhd] at hP; exact hP) (not_not_intro hPx)
            · exact h2 x hxtl hPx

theorem findOpenRow_none_forall (rows : List Interval) (u : Int) (loc : String)
    (h : findOpenRow rows u loc = none) : ∀ r ∈ rows, ¬ isOpenFor u loc r :=
  ((foldl_openRowStep_spec u loc rows none).1 h).2

theorem findOpenRow_some_spec (rows : List Interval) (u : Int) (loc : String)
    (r : Interval) (h : findOpenRow rows u loc = some r) :
    r ∈ rows ∧ isOpenFor u loc r ∧ ∀ x ∈ rows, isOpenFor u loc x → x.id ≤ r.id := by
  obtain ⟨h1, h2, _⟩ := (foldl_openRowStep_spec u loc rows none).2 r h
  rcases h1 with ⟨hm, hP⟩ | hacc
  · exact ⟨hm, hP, h2⟩
  · cases hacc

theorem countOpen_eq_zero_of_none (s : Store) (u : Int) (loc : String)
    (h : findOpenRow s.attendance u loc = none) : countOpen s u loc = 0 := by
  have := findOpenRow_none_forall s.attendance u loc h
  unfold countOpen
  rw [List.length_eq_zero]
  rw [List.filter_eq_nil_iff]
  intro a ha
  simp only [decide_eq_true_eq]
  exact this a ha

theorem length_filter_map_le (p : Interval → Bool) (f : Interval → Interval)
    (l : List Interval) (h : ∀ x, p (f x) = true → p x = true) :
    ((l.map f).filter p).length ≤ (l.filter p).length := by
  induction l with
  | nil => simp
  | cons hd tl ih =>
      rw [List.map_cons, List.filter_cons, List.filter_cons]
      by_cases hfh : p (f hd) = true
      · rw [if_pos hfh, if_pos (h hd hfh)]
        simpa using ih
      · rw [if_neg hfh]
        by_cases hh : p hd = true
        · rw [if_pos hh]
          simp only [List.length_cons]
          omega
        · rw [if_neg hh]
          exact ih

theorem applyOp_preserves_invariant (s : Store) (op : Op)
    (h : ∀ u loc, countOpen s u loc ≤ 1) :
    ∀ u loc, countOpen (applyOp s op) u loc ≤ 1 := by
  intro u loc
  cases op with
  | entry u0 loc0 ts =>
      show countOpen (handle_entry u0 loc0 ts s).1 u loc ≤ 1
      unfold handle_entry
      cases hf : findOpenRow s.attendance u0 loc0 with
      | some r => exact h u loc
      | none =>
          simp only
          unfold countOpen
          simp only [List.filter_append, List.length_append]
          by_cases hnew : isOpenFor u loc (⟨s.nextId, u0, loc0, ⟨ts, true⟩, none, false⟩ : Interval)
          · have h0 : countOpen s u loc = 0 := by
              obtain ⟨hu, hl, _⟩ := hnew
              subst hu; subst hl
              exact countOpen_eq_zero_of_none s _ _ hf
            unfold countOpen at h0
            simp [hnew, h0]
          · simp [hnew]
            exact h u loc
  | exit u0 loc0 ts =>
      show countOpen (handle_exit u0 loc0 ts s).1 u loc ≤ 1
      unfold handle_exit
      cases hf : findOpenRow s.attendance u0 loc0 with
      | none => exact h u loc
      | some r =>
          simp only
          unfold countOpen
          refine le_trans (length_filter_map_le _ _ _ ?_) (h u loc)
          intro x hx
          by_cases hid : x.id = r.id
          · exfalso
            rw [if_pos hid] at hx
            simp only [decide_eq_true_eq] at hx
            obtain ⟨_, _, hexit⟩ := hx
            cases hexit
          · rw [if_neg hid] at hx
            exact hx
  | confirmAutoEntry u0 loc0 ts =>
      show countOpen (confirm_auto_entry u0 loc0 ts s) u loc ≤ 1
      unfold confirm_auto_entry countOpen
      simp only [List.filter_append, List.length_append]
      have : ¬ isOpenFor u loc (⟨s.nextId, u0, loc0, ⟨ts, true⟩, some ⟨ts, true⟩, true⟩ : Interval) := by
        intro hP
        obtain ⟨_, _, hexit⟩ := hP
        cases hexit
      simp [this]
      exact h u loc

/-- C1: starting from the empty store, any sequence of entry, exit and
confirm-auto-entry operations leaves at most one open interval (null
exit timestamp) per (user, location): entry inserts an open row only
when none exists, exit only closes, confirm-auto-entry inserts a closed
row. -/
theorem C1_single_open_interval_invariant (ops : List Op) (u : Int) (loc : String) :
    countOpen (runOps ops) u loc ≤ 1 := by
  have hrun : ∀ (l : List Op) (s : Store), (∀ u2 loc2, countOpen s u2 loc2 ≤ 1) →
      ∀ u2 loc2, countOpen (l.foldl applyOp s) u2 loc2 ≤ 1 := by
    intro l
    induction l with
    | nil => intro s hs; exact hs
    | cons op rest ih =>
        intro s hs
        rw [List.foldl_cons]
        exact ih (applyOp s op) (applyOp_preserves_invariant s op hs)
  exact hrun ops emptyStore (by intro u2 loc2; simp [countOpen, emptyStore]) u loc

/-- C2: when an open interval exists for (user, location), `handle_entry`
rejects the request and leaves the store untouched — nothing is inserted
and the open interval is not auto-closed. -/
theorem C2_entry_rejected_when_open (u : Int) (loc : String) (ts : Nat) (s : Store)
    (r : Interval) (h : findOpenRow s.attendance u loc = some r) :
    handle_entry u loc ts s = (s, EntryResult.rejected) := by
  unfold handle_entry
  rw [h]

theorem C2_entry_rejected_when_open_witness :
    findOpenRow storeOpen1.attendance 1 "گلشهر" = some ⟨0, 1, "گلشهر", ⟨10, true⟩, none, false⟩ ∧
    handle_entry 1 "گلشهر" 99 storeOpen1 = (storeOpen1, EntryResult.rejected) :=
  ⟨by decide, C2_entry_rejected_when_open 1 "گلشهر" 99 storeOpen1
    ⟨0, 1, "گلشهر", ⟨10, true⟩, none, false⟩ (by decide)⟩

/-- C3: with no open interval for (user, location), `handle_exit` mutates
nothing and returns the confirmation-required result; the subsequent
`confirm_auto_entry` inserts exactly one interval whose entry and exit
timestamps both equal the confirmation instant with the auto flag set. -/
theorem C3_exit_without_open_confirm_flow (u : Int) (loc : String) (ts ts2 : Nat)
    (s : Store) (h : findOpenRow s.attendance u loc = none) :
    handle_exit u loc ts s = (s, ExitResult.confirmRequired) ∧
    (confirm_auto_entry u loc ts2 s).attendance
      = s.attendance ++ [⟨s.nextId, u, loc, ⟨ts2, true⟩, some ⟨ts2, true⟩, true⟩] ∧
    (confirm_auto_entry u loc ts2 s).daily_notes = s.daily_notes ∧
    (confirm_auto_entry u loc ts2 s).note_sessions = s.note_sessions := by
  refine ⟨?_, rfl, rfl, rfl⟩
  unfold handle_exit
  rw [h]

theorem C3_exit_without_open_confirm_flow_witness :
    handle_exit 7 "انبار صفا" 50 emptyStore = (emptyStore, ExitResult.confirmRequired) ∧
    (confirm_auto_entry 7 "انبار صفا" 60 emptyStore).attendance
      = [⟨0, 7, "انبار صفا", ⟨60, true⟩, some ⟨60, true⟩, true⟩] := by
  obtain ⟨h1, h2, _, _⟩ := C3_exit_without_open_confirm_flow 7 "انبار صفا" 50 60 emptyStore (by decide)
  exact ⟨h1, by rw [h2]; rfl⟩

theorem contributionOf_closed (ed : Nat) (r : Interval) (x : DT) (hx : r.exit_time = some x)
    (hw : x.aware = r.entry_time.aware) :
    contributionOf ed r = some ((x.sec : Int) - (r.entry_time.sec : Int)) := by
  unfold contributionOf
  rw [hx]
  unfold DT.sub
  rw [if_pos hw]

theorem contributionOf_open (ed : Nat) (r : Interval) (hx : r.exit_time = none)
    (hw : r.entry_time.aware = true) :
    contributionOf ed r = none := by
  unfold contributionOf
  rw [hx]
  unfold DT.sub
  rw [if_neg]
  rw [hw]
  simp

theorem calcFold_eq_some (ed : Nat) (rows : List Interval) :
    ∀ (st : List (String × Int)) (tot : Int),
      (∀ r ∈ rows, (contributionOf ed r).isSome) →
      calcFold ed rows st tot
        = some (rows.foldl (fun st2 r => addToLoc st2 r.location ((contributionOf ed r).getD 0)) st,
            tot + (rows.map (fun r => (contributionOf ed r).getD 0)).sum) := by
  induction rows with
  | nil => intro st tot _; simp [calcFold]
  | cons hd tl ih =>
      intro st tot h
      obtain ⟨dv, hdv⟩ := Option.isSome_iff_exists.mp (h hd (List.mem_cons_self _ _))
      simp only [calcFold, hdv]
      rw [ih _ _ (fun r hr => h r (List.mem_cons_of_mem _ hr))]
      simp only [List.foldl_cons, List.map_cons, List.sum_cons, hdv, Option.getD_some]
      rw [add_assoc]

theorem calcFold_some_isSome (ed : Nat) (rows : List Interval) :
    ∀ (st : List (String × Int)) (tot : Int) (out : List (String × Int) × Int),
      calcFold ed rows st tot = some out → ∀ r ∈ rows, (contributionOf ed r).isSome := by
  induction rows with
  | nil => intro _ _ _ _ r hr; cases hr
  | cons hd tl ih =>
      intro st tot out h r hr
      cases hc : contributionOf ed hd with
      | none => rw [calcFold, hc] at h; cases h
      | some dv =>
          rw [calcFold, hc] at h
          rcases List.mem_cons.mp hr with h1 | h1
          · rw [h1, hc]; rfl
          · exact ih _ _ _ h r h1

theorem calcFold_eq_none (ed : Nat) (rows : List Interval) (st : List (String × Int))
    (tot : Int) (r : Interval) (hr : r ∈ rows) (h : contributionOf ed r = none) :
    calcFold ed rows st tot = none := by
  cases hc : calcFold ed rows st tot with
  | none => rfl
  | some out =>
      have := calcFold_some_isSome ed rows st tot out hc r hr
      rw [h] at this
      cases this

theorem locTotal_addToLoc (st : List (String × Int)) (l : String) (d : Int) (loc : String) :
    locTotal (addToLoc st l d) loc = locTotal st loc + (if loc = l then d else 0) := by
  induction st with
  | nil =>
      by_cases h : l = loc
      · subst h; simp [addToLoc, locTotal, lookupLoc]
      · rw [show addToLoc [] l d = [(l, d)] from rfl]
        unfold locTotal lookupLoc
        rw [if_neg h, if_neg (fun hc => h hc.symm)]
        simp [lookupLoc]
  | cons p rest ih =>
      obtain ⟨l0, t0⟩ := p
      by_cases h0 : l0 = l
      · subst h0
        rw [show addToLoc ((l0, t0) :: rest) l0 d = (l0, t0 + d) :: rest from by
          rw [addToLoc, if_pos rfl]]
        unfold locTotal lookupLoc
        by_cases hl : l0 = loc
        · rw [if_pos hl, if_pos hl, if_pos (by rw [hl])]
          simp
        · rw [if_neg hl, if_neg hl, if_neg (fun hc => hl hc.symm)]
          simp
      · rw [show addToLoc ((l0, t0) :: rest) l d = (l0, t0) :: addToLoc rest l d from by
          rw [addToLoc, if_neg h0]]
        unfold locTotal lookupLoc
        by_cases hl : l0 = loc
        · rw [if_pos hl, if_pos hl, if_neg (fun hc => h0 (hl.trans hc))]
          simp
        · rw [if_neg hl, if_neg hl]
          exact ih

theorem locTotal_foldl (ed : Nat) (rows : List Interval) :
    ∀ (st : List (String × Int)) (loc : String),
      locTotal (rows.foldl
          (fun st2 r => addToLoc st2 r.location ((contributionOf ed r).getD 0)) st) loc
        = locTotal st loc
          + ((rows.filter (fun r => r.location = loc)).map
              (fun r => (contributionOf ed r).getD 0)).sum := by
  induction rows with
  | nil => intro st loc; simp
  | cons hd tl ih =>
      intro st loc
      rw [List.foldl_cons, ih, locTotal_addToLoc, List.filter_cons]
      by_cases h : hd.location = loc
      · rw [if_pos (show decide (hd.location = loc) = true from by simp [h]),
            if_pos (show loc = hd.location from h.symm)]
        simp only [List.map_cons, List.sum_cons]
        ring
      · rw [if_neg (show ¬ decide (hd.location = loc) = true from by simp [h]),
            if_neg (show ¬ loc = hd.location from fun hc => h hc.symm)]
        ring

theorem locTotal_initStats (loc : String) : locTotal initStats loc = 0 := by
  have hgen : ∀ ls : List String, locTotal (ls.map (fun l => (l, (0 : Int)))) loc = 0 := by
    intro ls
    induction ls with
    | nil => rfl
    | cons h t ih =>
        simp only [List.map_cons]
        unfold locTotal lookupLoc
        by_cases hh : h = loc
        · rw [if_pos hh]
          rfl
        · rw [if_neg hh]
          exact ih
  exact hgen LOCATIONS

theorem mem_rowsInRange (s : Store) (u : Int) (sd ed : Nat) (r : Interval) :
    r ∈ rowsInRange s u sd ed ↔
      r ∈ s.attendance ∧ r.userId = u ∧ sd * 86400 ≤ r.entry_time.sec ∧
        r.entry_time.sec < (ed + 1) * 86400 := by
  unfold rowsInRange
  rw [List.mem_filter]
  simp [and_assoc]

/-- C4: with an open interval present, `handle_exit` stamps the current
instant into the most recent open row for (user, location), leaves every
other row untouched, and reports the duration end minus start; and in the
entry-at-`T0` / exit-at-`T1` scenario the stored data holds exactly one
closed interval whose full duration `T1 - T0` a report over any range
containing the interval attributes to that interval's location. -/
theorem C4_exit_closes_and_reports_duration (u : Int) (loc : String) (ts : Nat) (s : Store)
    (r : Interval) (h : findOpenRow s.attendance u loc = some r)
    (hw : r.entry_time.aware = true) :
    (r ∈ s.attendance ∧ isOpenFor u loc r ∧
      ∀ x ∈ s.attendance, isOpenFor u loc x → x.id ≤ r.id) ∧
    (handle_exit u loc ts s).1.attendance
      = s.attendance.map
          (fun x => if x.id = r.id then { x with exit_time := some ⟨ts, true⟩ } else x) ∧
    (handle_exit u loc ts s).2
      = ExitResult.closed (some ((ts : Int) - (r.entry_time.sec : Int))) ∧
    (∀ (u2 : Int) (loc2 : String) (T0 T1 sd ed : Nat),
      sd * 86400 ≤ T0 → T0 < (ed + 1) * 86400 →
      (handle_exit u2 loc2 T1 (handle_entry u2 loc2 T0 emptyStore).1).1.attendance
        = [⟨0, u2, loc2, ⟨T0, true⟩, some ⟨T1, true⟩, false⟩] ∧
      ∃ st, calc_stats_for_period
          (handle_exit u2 loc2 T1 (handle_entry u2 loc2 T0 emptyStore).1).1 u2 sd ed
          = some st ∧
        locTotal st.1 loc2 = (T1 : Int) - (T0 : Int) ∧
        st.2 = (T1 : Int) - (T0 : Int)) := by
  refine ⟨findOpenRow_some_spec s.attendance u loc r h, ?_, ?_, ?_⟩
  · unfold handle_exit
    rw [h]
  · have hsub : DT.sub ⟨ts, true⟩ r.entry_time
        = some ((ts : Int) - (r.entry_time.sec : Int)) := by
      simp [DT.sub, hw]
    unfold handle_exit
    rw [h]
    show ExitResult.closed (DT.sub ⟨ts, true⟩ r.entry_time) = _
    rw [hsub]
  · intro u2 loc2 T0 T1 sd ed hsd hed
    have hs1 : (handle_entry u2 loc2 T0 emptyStore).1
        = ({ attendance := [⟨0, u2, loc2, ⟨T0, true⟩, none, false⟩], nextId := 1,
             daily_notes := [], note_sessions := [] } : Store) := by
      unfold handle_entry findOpenRow emptyStore
      rfl
    rw [hs1]
    have hfind : findOpenRow [⟨0, u2, loc2, ⟨T0, true⟩, none, false⟩] u2 loc2
        = some ⟨0, u2, loc2, ⟨T0, true⟩, none, false⟩ := by
      unfold findOpenRow
      rw [List.foldl_cons, List.foldl_nil]
      unfold openRowStep
      rw [if_pos ⟨rfl, rfl, rfl⟩]
    have hs2 : (handle_exit u2 loc2 T1
        ({ attendance := [⟨0, u2, loc2, ⟨T0, true⟩, none, false⟩], nextId := 1,
           daily_notes := [], note_sessions := [] } : Store)).1.attendance
        = [⟨0, u2, loc2, ⟨T0, true⟩, some ⟨T1, true⟩, false⟩] := by
      unfold handle_exit
      rw [hfind]
      simp
    refine ⟨hs2, ?_⟩
    have hrows : rowsInRange (handle_exit u2 loc2 T1
        ({ attendance := [⟨0, u2, loc2, ⟨T0, true⟩, none, false⟩], nextId := 1,
           daily_notes := [], note_sessions := [] } : Store)).1 u2 sd ed
        = [⟨0, u2, loc2, ⟨T0, true⟩, some ⟨T1, true⟩, false⟩] := by
      unfold rowsInRange
      rw [hs2]
      rw [List.filter_cons]
      rw [if_pos (by simp; omega)]
      rfl
    have hcontrib : contributionOf ed (⟨0, u2, loc2, ⟨T0, true⟩, some ⟨T1, true⟩, false⟩ : Interval)
        = some ((T1 : Int) - (T0 : Int)) :=
      contributionOf_closed ed _ ⟨T1, true⟩ rfl rfl
    unfold calc_stats_for_period
    rw [hrows]
    rw [calcFold_eq_some ed _ _ _ (by intro r2 hr2; rw [List.mem_singleton] at hr2; rw [hr2, hcontrib]; rfl)]
    refine ⟨_, rfl, ?_, ?_⟩
    · rw [List.foldl_cons, List.foldl_nil, locTotal_addToLoc, locTotal_initStats, hcontrib]
      simp
    · rw [List.map_cons, List.map_nil, List.sum_cons, List.sum_nil, hcontrib]
      simp

theorem C4_exit_closes_and_reports_duration_witness :
    (handle_exit 1 "گلشهر" 500 storeOpen1).1.attendance
      = [⟨0, 1, "گلشهر", ⟨10, true⟩, some ⟨500, true⟩, false⟩] ∧
    (handle_exit 1 "گلشهر" 500 storeOpen1).2 = ExitResult.closed (some 490) ∧
    (handle_exit 5 "کوچمشکی" 7200 (handle_entry 5 "کوچمشکی" 3600 emptyStore).1).1.attendance
      = [⟨0, 5, "کوچمشکی", ⟨3600, true⟩, some ⟨7200, true⟩, false⟩] := by
  obtain ⟨_, h2, h3, h4⟩ := C4_exit_closes_and_reports_duration 1 "گلشهر" 500 storeOpen1
    ⟨0, 1, "گلشهر", ⟨10, true⟩, none, false⟩ (by decide) (by decide)
  obtain ⟨h5, _⟩ := h4 5 "کوچمشکی" 3600 7200 0 0 (by decide) (by decide)
  refine ⟨by rw [h2]; rfl, by rw [h3]; rfl, h5⟩

/-- C5 counterexample: a closed interval entered on the first report day
but exited two days later contributes its full duration 200000 s to the
single-day report, not the clamped `min(end, rangeEnd) - start = 86399`
the claim requires. -/
theorem C5_counterexample_no_clamping :
    (calc_stats_for_period storeLongClosed 1 0 0).map Prod.snd = some 200000 ∧
    total_per_spec storeLongClosed 1 0 0 = 86399 ∧
    ¬ (calc_stats_for_period storeLongClosed 1 0 0).map Prod.snd
        = some (total_per_spec storeLongClosed 1 0 0) := by
  refine ⟨by decide, by decide, by decide⟩

/-- C5 amended: the aggregation ranges over exactly the intervals whose
entry timestamp falls in the report range; every closed interval
contributes its full `end - start` with no clamping at the range end; and
when an open interval (aware entry) is among them the aggregation fails
with a `TypeError` instead of substituting the range end. -/
theorem C5_amended_aggregation (s : Store) (u : Int) (sd ed : Nat) :
    (∀ r, r ∈ rowsInRange s u sd ed ↔
      r ∈ s.attendance ∧ r.userId = u ∧ sd * 86400 ≤ r.entry_time.sec ∧
        r.entry_time.sec < (ed + 1) * 86400) ∧
    ((∀ r ∈ rowsInRange s u sd ed, ∃ x, r.exit_time = some x ∧ x.aware = r.entry_time.aware) →
      ∃ st, calc_stats_for_period s u sd ed = some st ∧
        st.2 = ((rowsInRange s u sd ed).map
            (fun r => ((r.exit_time.map (fun x => (x.sec : Int))).getD 0)
              - (r.entry_time.sec : Int))).sum ∧
        ∀ loc, locTotal st.1 loc
          = (((rowsInRange s u sd ed).filter (fun r => r.location = loc)).map
              (fun r => ((r.exit_time.map (fun x => (x.sec : Int))).getD 0)
                - (r.entry_time.sec : Int))).sum) ∧
    (∀ r ∈ rowsInRange s u sd ed, r.exit_time = none → r.entry_time.aware = true →
      calc_stats_for_period s u sd ed = none) := by
  refine ⟨mem_rowsInRange s u sd ed, ?_, ?_⟩
  · intro hclosed
    have hvals : ∀ r ∈ rowsInRange s u sd ed,
        contributionOf ed r
          = some (((r.exit_time.map (fun x => (x.sec : Int))).getD 0)
              - (r.entry_time.sec : Int)) := by
      intro r hr
      obtain ⟨x, hx, hxw⟩ := hclosed r hr
      rw [contributionOf_closed ed r x hx hxw, hx]
      rfl
    have hsome : ∀ r ∈ rowsInRange s u sd ed, (contributionOf ed r).isSome := by
      intro r hr
      rw [hvals r hr]
      rfl
    unfold calc_stats_for_period
    rw [calcFold_eq_some ed _ _ _ hsome]
    refine ⟨_, rfl, ?_, ?_⟩
    · dsimp only
      rw [zero_add]
      apply congrArg
      apply List.map_congr_left
      intro r hr
      rw [hvals r hr]
      rfl
    · intro loc
      dsimp only
      rw [locTotal_foldl, locTotal_initStats, zero_add]
      apply congrArg
      apply List.map_congr_left
      intro r hr
      rw [hvals r (List.mem_of_mem_filter hr)]
      rfl
  · intro r hr hopen hw
    unfold calc_stats_for_period
    exact calcFold_eq_none ed _ _ _ r hr (contributionOf_open ed r hopen hw)

theorem C5_amended_aggregation_witness :
    (⟨0, 1, "گلشهر", ⟨0, true⟩, some ⟨200000, true⟩, false⟩ : Interval)
      ∈ rowsInRange storeLongClosed 1 0 0 ∧
    ∃ st, calc_stats_for_period storeLongClosed 1 0 0 = some st ∧ st.2 = 200000 := by
  constructor
  · exact (C5_amended_aggregation storeLongClosed 1 0 0).1 _ |>.mpr (by decide)
  · obtain ⟨st, h1, h2, _⟩ := (C5_amended_aggregation storeLongClosed 1 0 0).2.1
      (by
        have hrows : rowsInRange storeLongClosed 1 0 0
            = [⟨0, 1, "گلشهر", ⟨0, true⟩, some ⟨200000, true⟩, false⟩] := by decide
        intro r hr
        rw [hrows, List.mem_singleton] at hr
        subst hr
        exact ⟨⟨200000, true⟩, rfl, rfl⟩)
    exact ⟨st, h1, by rw [h2]; decide⟩

/-- C6: generating a report over a range containing an open interval does
not close that interval — but not for the reason the specification gives:
`calc_stats_for_period` builds a naive end-of-day datetime and subtracts
the aware entry from it, which raises `TypeError`, so no report is
produced at all (the code contradicts the intended display substitution;
the stored row is untouched since the function only reads). -/
theorem C6_report_open_interval_type_error :
    (storeOneOpen.attendance.map (fun r => r.exit_time)) = [none] ∧
    calc_stats_for_period storeOneOpen 1 0 0 = none ∧
    report_loc_lines storeOneOpen 1 0 0 = none := by
  refine ⟨rfl, by decide, by decide⟩

/-- C7: the tabular export carries one row per interval in the export
range; a closed interval's `hours` column is its duration in fractional
hours, and an open interval (null exit) contributes 0 hours — the export
does not substitute the report range end. -/
theorem C7_excel_export_rows (s : Store) (u : Int) (sd ed : Nat) :
    (excel_rows s u sd ed).length = (rowsInRange s u sd ed).length ∧
    ∀ r ∈ rowsInRange s u sd ed,
      (r.location, r.entry_time, r.exit_time, compHours r) ∈ excel_rows s u sd ed ∧
      (r.exit_time = none → compHours r = 0) ∧
      (∀ x, r.exit_time = some x → x.aware = r.entry_time.aware →
        compHours r * 3600 = (x.sec : ℚ) - (r.entry_time.sec : ℚ)) := by
  refine ⟨by unfold excel_rows; rw [List.length_map], ?_⟩
  intro r hr
  refine ⟨?_, ?_, ?_⟩
  · unfold excel_rows
    exact List.mem_map_of_mem _ hr
  · intro hopen
    unfold compHours
    rw [hopen]
  · intro x hx hxw
    have hc : compHours r = ((x.sec : ℚ) - (r.entry_time.sec : ℚ)) / 3600 := by
      unfold compHours
      rw [hx]
      dsimp only
      unfold DT.sub
      rw [if_pos hxw]
      push_cast
      ring
    rw [hc]
    exact div_mul_cancel₀ _ (by norm_num)

theorem C7_excel_export_rows_witness :
    compHours (⟨0, 1, "گلشهر", ⟨10, true⟩, none, false⟩ : Interval) = 0 ∧
    compHours (⟨0, 1, "گلشهر", ⟨0, true⟩, some ⟨200000, true⟩, false⟩ : Interval) * 3600
      = (200000 : ℚ) - (0 : ℚ) := by
  constructor
  · exact ((C7_excel_export_rows storeOpen1 1 0 0).2 _ (by decide)).2.1 rfl
  · have h := ((C7_excel_export_rows storeLongClosed 1 0 0).2
      ⟨0, 1, "گلشهر", ⟨0, true⟩, some ⟨200000, true⟩, false⟩ (by decide)).2.2
      ⟨200000, true⟩ rfl rfl
    simpa using h

/-- C8 counterexample: with an interval stored at the unconfigured
location "X", the report's per-location lines are exactly the six
configured locations; the line the claim requires for "X" never appears,
so the report lines differ from the configured-then-extras listing the
claim (and the stats dict itself) would give. -/
theorem C8_counterexample_unconfigured_location_omitted :
    report_loc_lines storeUnconfigured 1 0 0
      = some (LOCATIONS.map (fun l => (l, 0))) ∧
    report_loc_lines_per_spec storeUnconfigured 1 0 0
      = some (LOCATIONS.map (fun l => (l, 0)) ++ [("X", 3600)]) ∧
    report_loc_lines storeUnconfigured 1 0 0
      ≠ report_loc_lines_per_spec storeUnconfigured 1 0 0 := by
  refine ⟨by decide, by decide, by decide⟩

/-- C8 amended: whenever the aggregation succeeds, the per-location lines
of the attendance report list exactly the configured locations in their
declared order, each with its subtotal (zero when the range holds no data
for it); a location occurring only in the data and not in the configured
list is omitted from the lines. -/
theorem C8_amended_report_lines (s : Store) (u : Int) (sd ed : Nat)
    (st : List (String × Int) × Int) (h : calc_stats_for_period s u sd ed = some st) :
    report_loc_lines s u sd ed
      = some (LOCATIONS.map (fun loc => (loc, locTotal st.1 loc))) ∧
    (LOCATIONS.map (fun loc => (loc, locTotal st.1 loc))).map Prod.fst = LOCATIONS ∧
    (∀ loc, (rowsInRange s u sd ed).filter (fun r => r.location = loc) = [] →
      locTotal st.1 loc = 0) := by
  refine ⟨?_, ?_, ?_⟩
  · unfold report_loc_lines
    rw [h]
    rfl
  · have hmap : ∀ ls : List String,
        (ls.map (fun loc => (loc, locTotal st.1 loc))).map Prod.fst = ls := by
      intro ls
      induction ls with
      | nil => rfl
      | cons a t ih =>
          simp only [List.map_cons]
          rw [ih]
    exact hmap LOCATIONS
  · intro loc hempty
    unfold calc_stats_for_period at h
    have hsome := calcFold_some_isSome ed (rowsInRange s u sd ed) initStats 0 st h
    have := calcFold_eq_some ed (rowsInRange s u sd ed) initStats 0 hsome
    rw [this] at h
    have hst : st.1 = (rowsInRange s u sd ed).foldl
        (fun st2 r => addToLoc st2 r.location ((contributionOf ed r).getD 0)) initStats := by
      cases h
      rfl
    rw [hst, locTotal_foldl, locTotal_initStats, hempty]
    simp

theorem C8_amended_report_lines_witness :
    report_loc_lines storeUnconfigured 1 0 0
      = some (LOCATIONS.map (fun l => (l, 0))) := by
  have h := (C8_amended_report_lines storeUnconfigured 1 0 0
      (addToLoc initStats "X" 3600, 3600) (by decide)).1
  rw [h]
  decide

theorem find?_filter_ne (l : List (Int × Bool)) (u v : Int) (hvu : v ≠ u) :
    (l.filter (fun p => p.1 ≠ u)).find? (fun p => p.1 = v)
      = l.find? (fun p => p.1 = v) := by
  induction l with
  | nil => rfl
  | cons hd tl ih =>
      rw [List.filter_cons]
      by_cases hu : hd.1 = u
      · rw [if_neg (by simp [hu])]
        rw [List.find?_cons_of_neg _ (by simp [hu]; omega)]
        exact ih
      · rw [if_pos (by simp [hu])]
        by_cases hv : hd.1 = v
        · rw [List.find?_cons_of_pos _ (by simp [hv]), List.find?_cons_of_pos _ (by simp [hv])]
        · rw [List.find?_cons_of_neg _ (by simp [hv]), List.find?_cons_of_neg _ (by simp [hv])]
          exact ih

theorem find?_filter_self (l : List (Int × Bool)) (u : Int) :
    (l.filter (fun p => p.1 ≠ u)).find? (fun p => p.1 = u) = none := by
  rw [List.find?_eq_none]
  intro p hp
  have := List.of_mem_filter hp
  simp only [decide_eq_true_eq] at this ⊢
  exact this

/-- C10: the restart (start-over) action only forces the user's own
note-session flag to inactive: all attendance intervals and daily notes —
of this user and of every other — are untouched, every other user's
note-session flag keeps its value, and applying restart twice equals
applying it once. -/
theorem C10_reset_user_state_frame (u : Int) (s : Store) :
    (reset_user_state u s).attendance = s.attendance ∧
    (reset_user_state u s).daily_notes = s.daily_notes ∧
    (reset_user_state u s).nextId = s.nextId ∧
    getNoteSessionActive (reset_user_state u s) u = false ∧
    (∀ v, v ≠ u → getNoteSessionActive (reset_user_state u s) v
      = getNoteSessionActive s v) ∧
    reset_user_state u (reset_user_state u s) = reset_user_state u s := by
  refine ⟨rfl, rfl, rfl, ?_, ?_, ?_⟩
  · unfold getNoteSessionActive reset_user_state
    rw [List.find?_append, find?_filter_self]
    simp [List.find?]
  · intro v hvu
    unfold getNoteSessionActive reset_user_state
    rw [List.find?_append, find?_filter_ne _ _ _ hvu]
    cases hf : s.note_sessions.find? (fun p => p.1 = v) with
    | some p => rfl
    | none =>
        rw [List.find?_cons_of_neg _ (by simp; omega), List.find?_nil]
        rfl
  · unfold reset_user_state
    congr 1
    rw [List.filter_append, List.filter_filter]
    simp

theorem C10_reset_user_state_frame_witness :
    (reset_user_state 1 storeNotes).attendance = storeNotes.attendance ∧
    (reset_user_state 1 storeNotes).daily_notes = storeNotes.daily_notes ∧
    getNoteSessionActive (reset_user_state 1 storeNotes) 1 = false ∧
    getNoteSessionActive (reset_user_state 1 storeNotes) 2
      = getNoteSessionActive storeNotes 2 ∧
    reset_user_state 1 (reset_user_state 1 storeNotes) = reset_user_state 1 storeNotes := by
  obtain ⟨h1, h2, _, h4, h5, h6⟩ := C10_reset_user_state_frame 1 storeNotes
  exact ⟨h1, h2, h4, h5 2 (by decide), h6⟩

/-! Calendar round trip.  First the Jalali side: `jalaliDayNo` inverts
`jFromDayNo` on every day number, by the loop-invariant sum of the month
loop and explicit division facts for the 33-year cycle. -/

theorem jCumN_succ (i : Nat) (h : i < 11) : jCumN (i + 1) = jCumN i + jDimN i := by
  interval_cases i <;> rfl

theorem jMonthAux_sum (fuel i : Nat) (r : Int) :
    jCumN (jMonthAux fuel i r).1 + (jMonthAux fuel i r).2 = jCumN i + r := by
  induction fuel generalizing i r with
  | zero => rfl
  | succ f ih =>
    rw [jMonthAux]
    split
    · rename_i h
      rw [ih]
      rw [jCumN_succ i h.1]
      ring
    · rfl

set_option maxHeartbeats 1000000 in
theorem jalaliDayNo_jFromDayNo (n : Int) : jalaliDayNo (jFromDayNo n) = n := by
  simp only [jFromDayNo, jalaliDayNo]
  simp only [Int.add_sub_cancel, Int.toNat_natCast]
  set q := n / 12053 with hq
  set r1 := n % 12053 with hr1
  have h0 : n = 12053 * q + r1 ∧ 0 ≤ r1 ∧ r1 < 12053 := by omega
  set e := r1 / 1461 with he
  set r2 := r1 % 1461 with hr2
  have h1 : r1 = 1461 * e + r2 ∧ 0 ≤ r2 ∧ r2 < 1461 ∧ 0 ≤ e ∧ e ≤ 8 := by omega
  by_cases hc : 366 ≤ r2
  · simp only [if_pos hc]
    set f := (r2 - 1) / 365 with hf
    set r3 := (r2 - 1) % 365 with hr3
    have h2 : r2 - 1 = 365 * f + r3 ∧ 0 ≤ r3 ∧ r3 < 365 ∧ 1 ≤ f ∧ f ≤ 3 ∧ e ≤ 7 := by
      omega
    have hs := jMonthAux_sum 11 0 r3
    rw [show jCumN 0 = 0 from rfl] at hs
    have hdiv : (979 + 33 * q + 4 * e + f - 979) / 33 = q := by omega
    have hmod : (979 + 33 * q + 4 * e + f - 979) % 33 = 4 * e + f := by omega
    have hdiv4 : (4 * e + f + 3) / 4 = e + 1 := by omega
    omega
  · simp only [if_neg hc]
    have hs := jMonthAux_sum 11 0 r2
    rw [show jCumN 0 = 0 from rfl] at hs
    have hdiv : (979 + 33 * q + 4 * e - 979) / 33 = q := by omega
    have hmod : (979 + 33 * q + 4 * e - 979) % 33 = 4 * e := by omega
    have hdiv4 : (4 * e + 3) / 4 = e := by omega
    omega

/-! The Gregorian side: `gFromDayNo` inverts `gregDayNo` on every valid
date, via a characterization of the year cascade and of the month loop. -/

theorem gCascade2_small (gy k lp : Int) (h0 : 0 ≤ k) (h1 : k ≤ 365) :
    gCascade2 gy k lp = (gy + 4 * 0, k, lp) := by
  have hd : k / 1461 = 0 := by omega
  have hm : k % 1461 = k := by omega
  rw [gCascade2, hd, hm, if_neg (by omega)]

theorem gCascade2_leap (gy q4 k : Int) (h0 : 0 ≤ k) (h1 : k ≤ 365) :
    gCascade2 gy (1461 * q4 + k) 1 = (gy + 4 * q4, k, 1) := by
  have hd : (1461 * q4 + k) / 1461 = q4 := by omega
  have hm : (1461 * q4 + k) % 1461 = k := by omega
  rw [gCascade2, hd, hm, if_neg (by omega)]

theorem gCascade2_nonleap (gy q4 r4 k lp : Int) (h4 : 1 ≤ r4) (h4' : r4 ≤ 3)
    (h0 : 0 ≤ k) (h1 : k ≤ 364) :
    gCascade2 gy (1461 * q4 + 365 * r4 + 1 + k) lp = (gy + 4 * q4 + r4, k, 0) := by
  have hd : (1461 * q4 + 365 * r4 + 1 + k) / 1461 = q4 := by omega
  have hm : (1461 * q4 + 365 * r4 + 1 + k) % 1461 = 365 * r4 + 1 + k := by omega
  rw [gCascade2, hd, hm, if_pos (by omega)]
  have hd2 : (365 * r4 + 1 + k - 1) / 365 = r4 := by omega
  have hm2 : (365 * r4 + 1 + k - 1) % 365 = k := by omega
  rw [hd2, hm2]

theorem gMonthLoop_stepNe (leap d : Int) (rest : List Int) (i : Nat) (r : Int)
    (hi : i ≠ 1) (h : d ≤ r) :
    gMonthLoop leap (d :: rest) i r = gMonthLoop leap rest (i + 1) (r - d) := by
  rw [gMonthLoop, if_neg hi, add_zero, if_pos h]

theorem gMonthLoop_step1 (leap d : Int) (rest : List Int) (r : Int)
    (h : d + leap ≤ r) :
    gMonthLoop leap (d :: rest) 1 r = gMonthLoop leap rest (1 + 1) (r - (d + leap)) := by
  rw [gMonthLoop, if_pos rfl, if_pos h]

theorem gMonthLoop_stopNe (leap d : Int) (rest : List Int) (i : Nat) (r : Int)
    (hi : i ≠ 1) (h : r < d) :
    gMonthLoop leap (d :: rest) i r = (i, r) := by
  rw [gMonthLoop, if_neg hi, add_zero, if_neg (by omega)]

theorem gMonthLoop_stop1 (leap d : Int) (rest : List Int) (r : Int)
    (h : r < d + leap) :
    gMonthLoop leap (d :: rest) 1 r = (1, r) := by
  rw [gMonthLoop, if_pos rfl, if_neg (by omega)]

set_option maxHeartbeats 2000000 in
theorem gMonth_char (L : Int) (hL0 : 0 ≤ L) (hL1 : L ≤ 1) (mi : Nat) (hmi : mi < 12)
    (dd : Int) (hd0 : 0 ≤ dd) (hd1 : dd < gDimN mi + (if mi = 1 then L else 0)) :
    gMonthLoop L gMonthsList 0 (gCumL L mi + dd) = (mi, dd) := by
  rw [gMonthsList]
  interval_cases mi <;> norm_num [gDimN] at hd1
  · have hc : gCumL L 0 = 0 := rfl
    rw [hc]
    rw [gMonthLoop_stopNe]
    · simp only [Prod.mk.injEq, and_true, true_and] <;> omega
    all_goals omega
  · have hc : gCumL L 1 = 31 := rfl
    rw [hc]
    rw [gMonthLoop_stepNe]
    rw [gMonthLoop_stop1]
    · simp only [Prod.mk.injEq, and_true, true_and] <;> omega
    all_goals omega
  · have hc : gCumL L 2 = 59 + L := rfl
    rw [hc]
    rw [gMonthLoop_stepNe]
    rw [gMonthLoop_step1]
    rw [gMonthLoop_stopNe]
    · simp only [Prod.mk.injEq, and_true, true_and] <;> omega
    all_goals omega
  · have hc : gCumL L 3 = 90 + L := rfl
    rw [hc]
    rw [gMonthLoop_stepNe]
    rw [gMonthLoop_step1]
    rw [gMonthLoop_stepNe]
    rw [gMonthLoop_stopNe]
    · simp only [Prod.mk.injEq, and_true, true_and] <;> omega
    all_goals omega
  · have hc : gCumL L 4 = 120 + L := rfl
    rw [hc]
    rw [gMonthLoop_stepNe]
    rw [gMonthLoop_step1]
    rw [gMonthLoop_stepNe]
    rw [gMonthLoop_stepNe]
    rw [gMonthLoop_stopNe]
    · simp only [Prod.mk.injEq, and_true, true_and] <;> omega
    all_goals omega
  · have hc : gCumL L 5 = 151 + L := rfl
    rw [hc]
    rw [gMonthLoop_stepNe]
    rw [gMonthLoop_step1]
    rw [gMonthLoop_stepNe]
    rw [gMonthLoop_stepNe]
    rw [gMonthLoop_stepNe]
    rw [gMonthLoop_stopNe]
    · simp only [Prod.mk.injEq, and_true, true_and] <;> omega
    all_goals omega
  · have hc : gCumL L 6 = 181 + L := rfl
    rw [hc]
    rw [gMonthLoop_stepNe]
    rw [gMonthLoop_step1]
    rw [gMonthLoop_stepNe]
    rw [gMonthLoop_stepNe]
    rw [gMonthLoop_stepNe]
    rw [gMonthLoop_stepNe]
    rw [gMonthLoop_stopNe]
    · simp only [Prod.mk.injEq, and_true, true_and] <;> omega
    all_goals omega
  · have hc : gCumL L 7 = 212 + L := rfl
    rw [hc]
    rw [gMonthLoop_stepNe]
    rw [gMonthLoop_step1]
    rw [gMonthLoop_stepNe]
    rw [gMonthLoop_stepNe]
    rw [gMonthLoop_stepNe]
    rw [gMonthLoop_stepNe]
    rw [gMonthLoop_stepNe]
    rw [gMonthLoop_stopNe]
    · simp only [Prod.mk.injEq, and_true, true_and] <;> omega
    all_goals omega
  · have hc : gCumL L 8 = 243 + L := rfl
    rw [hc]
    rw [gMonthLoop_stepNe]
    rw [gMonthLoop_step1]
    rw [gMonthLoop_stepNe]
    rw [gMonthLoop_stepNe]
    rw [gMonthLoop_stepNe]
    rw [gMonthLoop_stepNe]
    rw [gMonthLoop_stepNe]
    rw [gMonthLoop_stepNe]
    rw [gMonthLoop_stopNe]
    · simp only [Prod.mk.injEq, and_true, true_and] <;> omega
    all_goals omega
  · have hc : gCumL L 9 = 273 + L := rfl
    rw [hc]
    rw [gMonthLoop_stepNe]
    rw [gMonthLoop_step1]
    rw [gMonthLoop_stepNe]
    rw [gMonthLoop_stepNe]
    rw [gMonthLoop_stepNe]
    rw [gMonthLoop_stepNe]
    rw [gMonthLoop_stepNe]
    rw [gMonthLoop_stepNe]
    rw [gMonthLoop_stepNe]
    rw [gMonthLoop_stopNe]
    · simp only [Prod.mk.injEq, and_true, true_and] <;> omega
    all_goals omega
  · have hc : gCumL L 10 = 304 + L := rfl
    rw [hc]
    rw [gMonthLoop_stepNe]
    rw [gMonthLoop_step1]
    rw [gMonthLoop_stepNe]
    rw [gMonthLoop_stepNe]
    rw [gMonthLoop_stepNe]
    rw [gMonthLoop_stepNe]
    rw [gMonthLoop_stepNe]
    rw [gMonthLoop_stepNe]
    rw [gMonthLoop_stepNe]
    rw [gMonthLoop_stepNe]
    rw [gMonthLoop_stopNe]
    · simp only [Prod.mk.injEq, and_true, true_and] <;> omega
    all_goals omega
  · have hc : gCumL L 11 = 334 + L := rfl
    rw [hc]
    rw [gMonthLoop_stepNe]
    rw [gMonthLoop_step1]
    rw [gMonthLoop_stepNe]
    rw [gMonthLoop_stepNe]
    rw [gMonthLoop_stepNe]
    rw [gMonthLoop_stepNe]
    rw [gMonthLoop_stepNe]
    rw [gMonthLoop_stepNe]
    rw [gMonthLoop_stepNe]
    rw [gMonthLoop_stepNe]
    rw [gMonthLoop_stepNe]
    rw [gMonthLoop_stopNe]
    · simp only [Prod.mk.injEq, and_true, true_and] <;> omega
    all_goals omega

set_option maxHeartbeats 1000000 in
theorem cascade_char (a k : Int) (hk0 : 0 ≤ k) (hk1 : k < 365 + gLeapI a) :
    gYearCascade (gYearStart a + k) = (1600 + a, k, gLeapI a) := by
  obtain ⟨qa, ra, hqa, hra0, hra1⟩ : ∃ q r, a = 400 * q + r ∧ 0 ≤ r ∧ r < 400 :=
    ⟨a / 400, a % 400, by omega, by omega, by omega⟩
  obtain ⟨qc, rc, hqc, hrc0, hrc1⟩ : ∃ q r, ra = 100 * q + r ∧ 0 ≤ r ∧ r < 100 :=
    ⟨ra / 100, ra % 100, by omega, by omega, by omega⟩
  obtain ⟨qy, ry, hqy, hry0, hry1⟩ : ∃ q r, rc = 4 * q + r ∧ 0 ≤ r ∧ r < 4 :=
    ⟨rc / 4, rc % 4, by omega, by omega, by omega⟩
  subst hqy; subst hqc; subst hqa
  by_cases hry : ry = 0
  · subst hry
    by_cases hqy0 : qy = 0
    · subst hqy0
      by_cases hqc0 : qc = 0
      · -- ra = 0 : a quatercentennial year, leap
        subst hqc0
        have hL : gLeapI (400 * qa + (100 * 0 + (4 * 0 + 0))) = 1 := by
          unfold gLeapI; rw [if_pos (by omega)]
        rw [hL] at hk1 ⊢
        have hYS : gYearStart (400 * qa + (100 * 0 + (4 * 0 + 0))) + k = 146097 * qa + k := by
          unfold gYearStart; omega
        rw [hYS, gYearCascade]
        rw [show (146097 * qa + k) / 146097 = qa from by omega,
            show (146097 * qa + k) % 146097 = k from by omega,
            if_neg (by omega)]
        rw [gCascade2_small _ _ _ (by omega) (by omega)]
        simp only [Prod.mk.injEq, and_true, true_and] <;> omega
      · -- a century year (rc = 0, qc in 1..3): not leap
        have hL : gLeapI (400 * qa + (100 * qc + (4 * 0 + 0))) = 0 := by
          unfold gLeapI; rw [if_neg (by omega)]
        rw [hL] at hk1 ⊢
        have hYS : gYearStart (400 * qa + (100 * qc + (4 * 0 + 0))) + k
            = 146097 * qa + (36524 * qc + 1 + k) := by
          unfold gYearStart; omega
        rw [hYS, gYearCascade]
        rw [show (146097 * qa + (36524 * qc + 1 + k)) / 146097 = qa from by omega,
            show (146097 * qa + (36524 * qc + 1 + k)) % 146097 = 36524 * qc + 1 + k from by
              omega,
            if_pos (by omega)]
        rw [show (36524 * qc + 1 + k - 1) / 36524 = qc from by omega,
            show (36524 * qc + 1 + k - 1) % 36524 = k from by omega,
            if_neg (by omega)]
        rw [gCascade2_small _ _ _ (by omega) (by omega)]
        simp only [Prod.mk.injEq, and_true, true_and] <;> omega
    · -- a leap year inside a century (4 divides ra, 100 does not)
      have hL : gLeapI (400 * qa + (100 * qc + (4 * qy + 0))) = 1 := by
        unfold gLeapI; rw [if_pos (by omega)]
      rw [hL] at hk1 ⊢
      by_cases hqc0 : qc = 0
      · subst hqc0
        have hYS : gYearStart (400 * qa + (100 * 0 + (4 * qy + 0))) + k
            = 146097 * qa + (1461 * qy + k) := by
          unfold gYearStart; omega
        rw [hYS, gYearCascade]
        rw [show (146097 * qa + (1461 * qy + k)) / 146097 = qa from by omega,
            show (146097 * qa + (1461 * qy + k)) % 146097 = 1461 * qy + k from by omega,
            if_neg (by omega)]
        rw [gCascade2_leap _ _ _ (by omega) (by omega)]
        simp only [Prod.mk.injEq, and_true, true_and] <;> omega
      · have hYS : gYearStart (400 * qa + (100 * qc + (4 * qy + 0))) + k
            = 146097 * qa + (36524 * qc + (1461 * qy + k)) := by
          unfold gYearStart; omega
        rw [hYS, gYearCascade]
        rw [show (146097 * qa + (36524 * qc + (1461 * qy + k))) / 146097 = qa from by omega,
            show (146097 * qa + (36524 * qc + (1461 * qy + k))) % 146097
              = 36524 * qc + (1461 * qy + k) from by omega,
            if_pos (by omega)]
        rw [show (36524 * qc + (1461 * qy + k) - 1) / 36524 = qc from by omega,
            show (36524 * qc + (1461 * qy + k) - 1) % 36524 = 1461 * qy + k - 1 from by omega,
            if_pos (by omega)]
        rw [show 1461 * qy + k - 1 + 1 = 1461 * qy + k from by omega]
        rw [gCascade2_leap _ _ _ (by omega) (by omega)]
        simp only [Prod.mk.injEq, and_true, true_and] <;> omega
  · -- an ordinary non-leap year: ry in 1..3
    have hL : gLeapI (400 * qa + (100 * qc + (4 * qy + ry))) = 0 := by
      unfold gLeapI; rw [if_neg (by omega)]
    rw [hL] at hk1 ⊢
    by_cases hqc0 : qc = 0
    · subst hqc0
      have hYS : gYearStart (400 * qa + (100 * 0 + (4 * qy + ry))) + k
          = 146097 * qa + (1461 * qy + 365 * ry + 1 + k) := by
        unfold gYearStart; omega
      rw [hYS, gYearCascade]
      rw [show (146097 * qa + (1461 * qy + 365 * ry + 1 + k)) / 146097 = qa from by omega,
          show (146097 * qa + (1461 * qy + 365 * ry + 1 + k)) % 146097
            = 1461 * qy + 365 * ry + 1 + k from by omega,
          if_neg (by omega)]
      rw [gCascade2_nonleap _ _ _ _ _ (by omega) (by omega) (by omega) (by omega)]
      simp only [Prod.mk.injEq, and_true, true_and] <;> omega
    · have hYS : gYearStart (400 * qa + (100 * qc + (4 * qy + ry))) + k
          = 146097 * qa + (36524 * qc + (1461 * qy + 365 * ry + k) + 1) := by
        unfold gYearStart; omega
      rw [hYS, gYearCascade]
      rw [show (146097 * qa + (36524 * qc + (1461 * qy + 365 * ry + k) + 1)) / 146097
            = qa from by omega,
          show (146097 * qa + (36524 * qc + (1461 * qy + 365 * ry + k) + 1)) % 146097
            = 36524 * qc + (1461 * qy + 365 * ry + k) + 1 from by omega,
          if_pos (by omega)]
      rw [show (36524 * qc + (1461 * qy + 365 * ry + k) + 1 - 1) / 36524 = qc from by omega,
          show (36524 * qc + (1461 * qy + 365 * ry + k) + 1 - 1) % 36524
            = 1461 * qy + 365 * ry + k from by omega,
          if_pos (by omega)]
      rw [show 1461 * qy + 365 * ry + k + 1 = 1461 * qy + 365 * ry + 1 + k from by omega]
      rw [gCascade2_nonleap _ _ _ _ _ (by omega) (by omega) (by omega) (by omega)]
      simp only [Prod.mk.injEq, and_true, true_and] <;> omega

theorem gLeapI_cases (a : Int) : gLeapI a = 0 ∨ gLeapI a = 1 := by
  unfold gLeapI; split_ifs <;> simp

theorem gCumL_dd_bounds (L : Int) (hL0 : 0 ≤ L) (hL1 : L ≤ 1) (mi : Nat) (hmi : mi < 12)
    (dd : Int) (hdd0 : 0 ≤ dd) (hdd1 : dd < gDimN mi + (if mi = 1 then L else 0)) :
    0 ≤ gCumL L mi + dd ∧ gCumL L mi + dd < 365 + L := by
  interval_cases mi <;> norm_num [gDimN, gCumL, gCumN] at hdd1 ⊢ <;> omega

theorem dim_bridge (y m : Int) (hm1 : 1 ≤ m) (hm2 : m ≤ 12) :
    gDaysInMonth y m
      = gDimN (m - 1).toNat + (if (m - 1).toNat = 1 then gLeapI (y - 1600) else 0) := by
  unfold gDaysInMonth
  by_cases h2 : m = 2
  · subst h2
    rcases gLeapI_cases (y - 1600) with h | h <;> rw [h]
    · rw [if_neg (by omega), if_pos (show ((2:Int) - 1).toNat = 1 from by omega)]
    · rw [if_pos (by omega), if_pos (show ((2:Int) - 1).toNat = 1 from by omega)]
  · rw [if_neg (by omega), if_neg (fun hc => h2 (by omega))]

set_option maxHeartbeats 1000000 in
theorem gFromDayNo_gregDayNo (y m d : Int) (hm1 : 1 ≤ m) (hm2 : m ≤ 12) (hd1 : 1 ≤ d)
    (hd2 : d ≤ gDaysInMonth y m) : gFromDayNo (gregDayNo ⟨y, m, d⟩) = ⟨y, m, d⟩ := by
  have hmi : (m - 1).toNat < 12 := by omega
  obtain ⟨hL0, hL1⟩ : 0 ≤ gLeapI (y - 1600) ∧ gLeapI (y - 1600) ≤ 1 := by
    rcases gLeapI_cases (y - 1600) with h | h <;> omega
  have hdd1 : d - 1 < gDimN (m - 1).toNat
      + (if (m - 1).toNat = 1 then gLeapI (y - 1600) else 0) := by
    rw [← dim_bridge y m hm1 hm2]; omega
  obtain ⟨hk0, hk1⟩ := gCumL_dd_bounds (gLeapI (y - 1600)) hL0 hL1 (m - 1).toNat hmi
    (d - 1) (by omega) hdd1
  have harg : gregDayNo ⟨y, m, d⟩
      = gYearStart (y - 1600) + (gCumL (gLeapI (y - 1600)) (m - 1).toNat + (d - 1)) := by
    unfold gregDayNo; ring
  rw [harg]
  unfold gFromDayNo
  rw [cascade_char _ _ hk0 hk1]
  rw [show ((1600 + (y - 1600), gCumL (gLeapI (y - 1600)) (m - 1).toNat + (d - 1),
        gLeapI (y - 1600)) : Int × Int × Int).2.2 = gLeapI (y - 1600) from rfl,
      show ((1600 + (y - 1600), gCumL (gLeapI (y - 1600)) (m - 1).toNat + (d - 1),
        gLeapI (y - 1600)) : Int × Int × Int).2.1
        = gCumL (gLeapI (y - 1600)) (m - 1).toNat + (d - 1) from rfl,
      show ((1600 + (y - 1600), gCumL (gLeapI (y - 1600)) (m - 1).toNat + (d - 1),
        gLeapI (y - 1600)) : Int × Int × Int).1 = 1600 + (y - 1600) from rfl]
  rw [gMonth_char _ hL0 hL1 _ hmi _ (by omega) hdd1]
  simp only [GDate.mk.injEq]
  refine ⟨by omega, by omega, by omega⟩

/-- C9: converting a valid internal (Gregorian) date to the display
(Jalali) calendar and parsing the rendered literal back yields the same
date: `fromDisplayCalendar(toDisplayCalendar(d)) = d`. -/
theorem C9_display_calendar_roundtrip (y m d : Int) (hm1 : 1 ≤ m) (hm2 : m ≤ 12)
    (hd1 : 1 ≤ d) (hd2 : d ≤ gDaysInMonth y m) :
    parse_jalali_date (gregorian_date_to_jalali_str ⟨y, m, d⟩) = ⟨y, m, d⟩ := by
  unfold parse_jalali_date gregorian_date_to_jalali_str
  rw [jalaliDayNo_jFromDayNo]
  rw [Int.sub_add_cancel]
  exact gFromDayNo_gregDayNo y m d hm1 hm2 hd1 hd2

theorem C9_display_calendar_roundtrip_witness :
    parse_jalali_date (gregorian_date_to_jalali_str ⟨2024, 10, 12⟩) = ⟨2024, 10, 12⟩ :=
  C9_display_calendar_roundtrip 2024 10 12 (by decide) (by decide) (by decide)
    (by decide)

end Bot
